import Mathlib

/-!
Shallow embedding of the data-retrieval and aggregation engine of the
Dash-Application repository (src/data_utils.py, src/actual_callbacks.py,
src/total_callbacks.py), together with theorems settling the frozen claims
about it.

Modelling conventions:
* SQLite `REAL` channel values are modelled as `Int`.  The repository's own
  generator (src/generate_db.py) always writes all nine channel values, so
  rows carry total values and no NULL handling is needed.
* `time.mktime` is modelled under a UTC environment: a parsed calendar time
  is converted to Unix seconds by day-number arithmetic.
* Python `None` is modelled as `Option.none`; a raised exception in a
  Python function is modelled by an outer `Option.none` result.
* pandas `pd.to_datetime` on ISO date strings and `datetime.strptime` with
  format "%Y-%m-%d" are both modelled by `parseDate`, which accepts the strict
  ISO form `YYYY-M(M)-D(D)` produced by the period-option lister.
-/

/-- Gregorian leap-year test, matching Python `datetime` semantics. -/
def isLeap (y : Nat) : Bool := (y % 4 == 0 && y % 100 != 0) || y % 400 == 0

/-- Number of days in month `m` of year `y` (months numbered 1..12). -/
def daysInMonth (y m : Nat) : Nat :=
  if m = 2 then (if isLeap y then 29 else 28)
  else if m = 4 ∨ m = 6 ∨ m = 9 ∨ m = 11 then 30
  else 31

/-- Days elapsed in year `y` before the first day of month `m`. -/
def daysBeforeMonth (y m : Nat) : Nat :=
  (if m = 1 then 0 else if m = 2 then 31 else if m = 3 then 59
   else if m = 4 then 90 else if m = 5 then 120 else if m = 6 then 151
   else if m = 7 then 181 else if m = 8 then 212 else if m = 9 then 243
   else if m = 10 then 273 else if m = 11 then 304 else 334)
  + (if 3 ≤ m ∧ isLeap y = true then 1 else 0)

/-- A proleptic-Gregorian calendar date. -/
structure Date where
  year : Nat
  month : Nat
  day : Nat
deriving DecidableEq, Repr

/-- The linear day count of a date: `0001-01-01` is day 0. -/
def dayNumber (dt : Date) : Nat :=
  365 * (dt.year - 1) + (dt.year - 1) / 4 + (dt.year - 1) / 400 - (dt.year - 1) / 100
    + daysBeforeMonth dt.year dt.month + (dt.day - 1)

/-- Calendar validity of a date (what `datetime.date` accepts, without the
upper year bound, which no claim exercises). -/
def ValidDate (dt : Date) : Prop :=
  1 ≤ dt.year ∧ 1 ≤ dt.month ∧ dt.month ≤ 12 ∧ 1 ≤ dt.day ∧
    dt.day ≤ daysInMonth dt.year dt.month

instance (dt : Date) : Decidable (ValidDate dt) := by
  unfold ValidDate; infer_instance

/-- The calendar successor of a date. -/
def nextDay (dt : Date) : Date :=
  if dt.day < daysInMonth dt.year dt.month then ⟨dt.year, dt.month, dt.day + 1⟩
  else if dt.month < 12 then ⟨dt.year, dt.month + 1, 1⟩
  else ⟨dt.year + 1, 1, 1⟩

/-- `n` calendar days after `dt`; models `pd.Timedelta(days=n)` addition. -/
def addDays : Nat → Date → Date
  | 0, dt => dt
  | n + 1, dt => addDays n (nextDay dt)

theorem daysInMonth_pos (y m : Nat) : 1 ≤ daysInMonth y m := by
  unfold daysInMonth
  split_ifs <;> omega

theorem daysInMonth_le (y m : Nat) : daysInMonth y m ≤ 31 := by
  unfold daysInMonth
  split_ifs <;> omega

theorem isLeap_iff (y : Nat) :
    isLeap y = true ↔ (y % 4 = 0 ∧ y % 100 ≠ 0) ∨ y % 400 = 0 := by
  simp [isLeap]

theorem daysBeforeMonth_succ (y m : Nat) (h1 : 1 ≤ m) (h2 : m ≤ 11) :
    daysBeforeMonth y (m + 1) = daysBeforeMonth y m + daysInMonth y m := by
  interval_cases m <;> cases hL : isLeap y <;>
    simp [daysBeforeMonth, daysInMonth, hL]

theorem daysBeforeMonth_one (y : Nat) : daysBeforeMonth y 1 = 0 := by
  simp [daysBeforeMonth]

theorem daysBeforeMonth_twelve (y : Nat) :
    daysBeforeMonth y 12 = 334 + (if isLeap y = true then 1 else 0) := by
  simp [daysBeforeMonth]

set_option maxHeartbeats 1000000 in
theorem dayNumber_jan1_succ (y : Nat) (h : 1 ≤ y) :
    dayNumber ⟨y + 1, 1, 1⟩ = dayNumber ⟨y, 12, 31⟩ + 1 := by
  have hL := isLeap_iff y
  simp only [dayNumber, daysBeforeMonth_one, daysBeforeMonth_twelve]
  by_cases hc : (y % 4 = 0 ∧ y % 100 ≠ 0) ∨ y % 400 = 0
  · rw [if_pos (hL.mpr hc)]
    omega
  · rw [if_neg (fun hcc => hc (hL.mp hcc))]
    omega

theorem validDate_nextDay {dt : Date} (h : ValidDate dt) : ValidDate (nextDay dt) := by
  have hpos1 := daysInMonth_pos dt.year (dt.month + 1)
  have hpos2 := daysInMonth_pos (dt.year + 1) 1
  obtain ⟨h1, h2, h3, h4, h5⟩ := h
  unfold ValidDate nextDay
  split
  · dsimp only
    omega
  · split <;> dsimp only <;> omega

theorem dayNumber_nextDay {dt : Date} (h : ValidDate dt) :
    dayNumber (nextDay dt) = dayNumber dt + 1 := by
  obtain ⟨h1, h2, h3, h4, h5⟩ := h
  unfold nextDay
  split
  · simp only [dayNumber]
    omega
  · rename_i hday
    split
    · rename_i hm
      have hdm : dt.day = daysInMonth dt.year dt.month := by omega
      have key := daysBeforeMonth_succ dt.year dt.month h2 (by omega)
      simp only [dayNumber]
      omega
    · rename_i hm
      have hm12 : dt.month = 12 := by omega
      have hd31 : dt.day = 31 := by
        have h31 : daysInMonth dt.year dt.month = 31 := by
          rw [hm12]; rfl
        omega
      have key := dayNumber_jan1_succ dt.year h1
      calc dayNumber ⟨dt.year + 1, 1, 1⟩ = dayNumber ⟨dt.year, 12, 31⟩ + 1 := key
        _ = dayNumber dt + 1 := by rw [← hm12, ← hd31]

theorem validDate_addDays {dt : Date} (h : ValidDate dt) (n : Nat) :
    ValidDate (addDays n dt) := by
  induction n generalizing dt with
  | zero => exact h
  | succ n ih => exact ih (validDate_nextDay h)

theorem dayNumber_addDays {dt : Date} (h : ValidDate dt) (n : Nat) :
    dayNumber (addDays n dt) = dayNumber dt + n := by
  induction n generalizing dt with
  | zero => rfl
  | succ n ih =>
    show dayNumber (addDays n (nextDay dt)) = _
    rw [ih (validDate_nextDay h), dayNumber_nextDay h]
    omega

/-! ### Strict timestamp parsing (`time.strptime` / `datetime.strptime`) -/

def isDigitCh (c : Char) : Bool := '0' ≤ c && c ≤ '9'

def digitVal (c : Char) : Nat := c.toNat - '0'.toNat

/-- The whitespace set of Python `str.strip` (ASCII part). -/
def isSpaceCh (c : Char) : Bool :=
  c == ' ' || c == '\t' || c == '\n' || c == '\r' || c == '\x0b' || c == '\x0c'

/-- Python `str.strip`. -/
def stripChars (cs : List Char) : List Char :=
  ((cs.dropWhile isSpaceCh).reverse.dropWhile isSpaceCh).reverse

/-- Parse a one-or-two-digit numeric field following the CPython `strptime`
regex alternation: a two-digit window must satisfy the two-digit alternatives
(`validTwo`); otherwise a single digit must satisfy `validOne`. -/
def parseField (validTwo validOne : Nat → Bool) : List Char → Option (Nat × List Char)
  | [] => none
  | [a] => if isDigitCh a && validOne (digitVal a) then some (digitVal a, []) else none
  | a :: b :: rest =>
    if isDigitCh a then
      if isDigitCh b then
        let v := 10 * digitVal a + digitVal b
        if validTwo v then some (v, rest) else none
      else if validOne (digitVal a) then some (digitVal a, b :: rest) else none
    else none

/-- Parse exactly four digits (the `%Y` directive). -/
def parseYear4 : List Char → Option (Nat × List Char)
  | a :: b :: c :: d :: rest =>
    if isDigitCh a && isDigitCh b && isDigitCh c && isDigitCh d then
      some (1000 * digitVal a + 100 * digitVal b + 10 * digitVal c + digitVal d, rest)
    else none
  | _ => none

/-- Match one required character (a literal in the format string). -/
def expectChar (c : Char) : List Char → Option (List Char)
  | [] => none
  | a :: rest => if a == c then some rest else none

/-- Match at least one whitespace character (a space in a `strptime` format
matches a nonempty whitespace run). -/
def expectSpaces : List Char → Option (List Char)
  | [] => none
  | a :: rest => if isSpaceCh a then some (rest.dropWhile isSpaceCh) else none

/-- Strict parse of `YYYY-M(M)-D(D)`, the `%Y-%m-%d` format of
`datetime.strptime`, including the calendar-consistency check CPython performs
through `datetime.date`. -/
def parseDateChars (cs : List Char) : Option Date :=
  match parseYear4 cs with
  | none => none
  | some (y, cs1) =>
    match expectChar '-' cs1 with
    | none => none
    | some cs2 =>
      match parseField (fun v => 1 ≤ v && v ≤ 12) (fun v => 1 ≤ v && v ≤ 9) cs2 with
      | none => none
      | some (mo, cs3) =>
        match expectChar '-' cs3 with
        | none => none
        | some cs4 =>
          match parseField (fun v => 1 ≤ v && v ≤ 31) (fun v => 1 ≤ v && v ≤ 9) cs4 with
          | none => none
          | some (d, cs5) =>
            if cs5 = [] ∧ ValidDate ⟨y, mo, d⟩ then some ⟨y, mo, d⟩ else none

/-- `datetime.strptime(s, "%Y-%m-%d")` / `pd.to_datetime(s)` on ISO dates. -/
def parseDate (s : String) : Option Date := parseDateChars s.data

/-- Strict parse of the `%Y-%m-%d %H:%M:%S` format of `time.strptime`. -/
def parseDateTimeChars (cs : List Char) : Option (Date × Nat × Nat × Nat) :=
  match parseYear4 cs with
  | none => none
  | some (y, cs1) =>
    match expectChar '-' cs1 with
    | none => none
    | some cs2 =>
      match parseField (fun v => 1 ≤ v && v ≤ 12) (fun v => 1 ≤ v && v ≤ 9) cs2 with
      | none => none
      | some (mo, cs3) =>
        match expectChar '-' cs3 with
        | none => none
        | some cs4 =>
          match parseField (fun v => 1 ≤ v && v ≤ 31) (fun v => 1 ≤ v && v ≤ 9) cs4 with
          | none => none
          | some (d, cs5) =>
            match expectSpaces cs5 with
            | none => none
            | some cs6 =>
              match parseField (fun v => v ≤ 23) (fun _ => true) cs6 with
              | none => none
              | some (h, cs7) =>
                match expectChar ':' cs7 with
                | none => none
                | some cs8 =>
                  match parseField (fun v => v ≤ 59) (fun _ => true) cs8 with
                  | none => none
                  | some (mi, cs9) =>
                    match expectChar ':' cs9 with
                    | none => none
                    | some cs10 =>
                      match parseField (fun v => v ≤ 61) (fun _ => true) cs10 with
                      | none => none
                      | some (s, cs11) =>
                        if cs11 = [] ∧ ValidDate ⟨y, mo, d⟩ then
                          some (⟨y, mo, d⟩, h, mi, s)
                        else none

/-- Unix seconds of a parsed calendar time, modelling `time.mktime` in a UTC
environment. -/
def mkStampOfParts (dt : Date) (h mi s : Nat) : Int :=
  ((dayNumber dt : Int) - (dayNumber ⟨1970, 1, 1⟩ : Int)) * 86400
    + h * 3600 + mi * 60 + s

/-- `DataFetcher.generate_stamp` from src/data_utils.py: convert
`YYYY-mm-dd HH:MM:SS` to a Unix timestamp, returning `-1` on a parse error. -/
def generate_stamp (time_str : String) : Int :=
  match parseDateTimeChars (stripChars time_str.data) with
  | none => -1
  | some (dt, h, mi, s) => mkStampOfParts dt h mi s

/-! ### Time/Range Resolver and step policy -/

/-- Zero-pad to two digits, as `strftime("%m")` / `strftime("%d")` do. -/
def pad2 (n : Nat) : String := if n < 10 then "0" ++ toString n else toString n

/-- Zero-pad to four digits, as `strftime("%Y")` does. -/
def pad4 (n : Nat) : String :=
  if n < 10 then "000" ++ toString n
  else if n < 100 then "00" ++ toString n
  else if n < 1000 then "0" ++ toString n
  else toString n

/-- `strftime("%Y-%m-%d")`. -/
def formatDate (dt : Date) : String :=
  pad4 dt.year ++ "-" ++ pad2 dt.month ++ "-" ++ pad2 dt.day

/-- Python truthiness test for an optional string argument. -/
def falsyOpt : Option String → Bool
  | none => true
  | some s => s.isEmpty

/-- `DataFetcher.compute_start_end` from src/data_utils.py.  The outer
`Option` models a pandas parse exception escaping the function; the inner
`Option`s model Python `None`. -/
def compute_start_end (unit value : Option String) :
    Option (Option String × Option String) :=
  if falsyOpt unit || falsyOpt value then some (none, none)
  else
    let u := unit.getD ""
    let v := value.getD ""
    if u = "year" then some (some (v ++ "-01-01"), some (v ++ "-12-31"))
    else if u = "month" then
      match parseDate (v ++ "-01") with
      | none => none
      | some dt =>
        some (some (v ++ "-01"),
          some (formatDate ⟨dt.year, dt.month, daysInMonth dt.year dt.month⟩))
    else if u = "week" then
      match parseDate v with
      | none => none
      | some dt => some (some v, some (formatDate (addDays 6 dt)))
    else some (some v, some v)

/-- `compute_sampling_step` from src/actual_callbacks.py.  `none` models the
uncaught `ValueError` of `datetime.strptime` on a malformed date. -/
def compute_sampling_step (start_date end_date : String) : Option Int :=
  match parseDate start_date, parseDate end_date with
  | some s, some e =>
    let diff_days : Int := max ((dayNumber e : Int) - (dayNumber s : Int)) 0
    some (max 1 (10 * (diff_days / 7)))
  | _, _ => none

/-! ### Instantaneous Reading Store (`ACTUAL` table) and sampler -/

/-- A row of the `ACTUAL` or `TOTAL` table (src/generate_db.py schema).  The
generator writes all nine channel values on every row, so values are total. -/
structure Row where
  UTC_TIME : Int
  U_IN : Int
  V_IN : Int
  W_IN : Int
  U_OUT : Int
  V_OUT : Int
  W_OUT : Int
  ATLAS : Int
  BUPI : Int
  RENDER : Int
deriving DecidableEq, Repr

/-- The nine channel column names of the schema. -/
def validCols : List String :=
  ["U_IN", "V_IN", "W_IN", "U_OUT", "V_OUT", "W_OUT", "ATLAS", "BUPI", "RENDER"]

/-- The value of the named channel column in a row (the SQL projection
`{c} AS value`).  Unknown names never reach this function: the query wrapper
maps them to an error result. -/
def getCol (c : String) (r : Row) : Int :=
  if c = "U_IN" then r.U_IN else if c = "V_IN" then r.V_IN
  else if c = "W_IN" then r.W_IN else if c = "U_OUT" then r.U_OUT
  else if c = "V_OUT" then r.V_OUT else if c = "W_OUT" then r.W_OUT
  else if c = "ATLAS" then r.ATLAS else if c = "BUPI" then r.BUPI
  else if c = "RENDER" then r.RENDER else 0

/-- The calendar day of a Unix timestamp; models SQLite `date(t,'unixepoch')`
for grouping (two stamps get equal date strings iff their floor-divided day
counts agree). -/
def dayOfStamp (t : Int) : Int := Int.fdiv t 86400

/-- The in-range rows ordered by `UTC_TIME` ascending: the ordered per-channel
set over which both `ROW_NUMBER` window functions run (`WHERE UTC_TIME BETWEEN
lo AND hi`, `ORDER BY b.UTC_TIME`). -/
def rangeRows (store : List Row) (lo hi : Int) : List Row :=
  (store.filter (fun r => decide (lo ≤ r.UTC_TIME) && decide (r.UTC_TIME ≤ hi))).insertionSort
    (fun a b => a.UTC_TIME ≤ b.UTC_TIME)

/-- Every `step`-th row (0-based) of the ordered set:
`WHERE (global_rn - 1) % step = 0`.  For `step = 0`, SQLite's `x % 0` is NULL
and no row qualifies. -/
def steppedRows (step : Nat) (rows : List Row) : List Row :=
  if step = 0 then []
  else (rows.enum.filter (fun p => decide (p.1 % step = 0))).map Prod.snd

/-- First row attaining the maximal channel value, the row with
`ROW_NUMBER() OVER (... ORDER BY value DESC) = 1` under a deterministic
first-occurrence tie-break. -/
def maxRowBy (f : Row → Int) : Row → List Row → Row
  | x, [] => x
  | x, y :: ys => if f x < f y then maxRowBy f y ys else maxRowBy f x ys

/-- The per-calendar-day peak rows of the ordered set (`daily_rn = 1`). -/
def dailyMaxRows (f : Row → Int) (rows : List Row) : List Row :=
  ((rows.map (fun r => dayOfStamp r.UTC_TIME)).dedup).filterMap (fun d =>
    match rows.filter (fun r => decide (dayOfStamp r.UTC_TIME = d)) with
    | [] => none
    | x :: xs => some (maxRowBy f x xs))

/-- An output row of `query_data_actual_advanced`: `is_max = 1` marks a
daily-peak row. -/
structure OutRow where
  UTC_TIME : Int
  varName : String
  value : Int
  is_max : Nat
deriving DecidableEq, Repr

/-- One channel's output: the union (`UNION ALL`) of its stepped series
(`is_max = 0`) and its daily-max series (`is_max = 1`). -/
def chanOut (store : List Row) (lo hi : Int) (step : Nat) (c : String) : List OutRow :=
  let rows := rangeRows store lo hi
  (steppedRows step rows).map (fun r => ⟨r.UTC_TIME, c, getCol c r, 0⟩)
    ++ (dailyMaxRows (getCol c) rows).map (fun r => ⟨r.UTC_TIME, c, getCol c r, 1⟩)

/-- Lexicographic comparison of char lists (SQLite text ordering). -/
def charListLt : List Char → List Char → Bool
  | [], [] => false
  | [], _ :: _ => true
  | _ :: _, [] => false
  | a :: as, b :: bs =>
    if a.toNat < b.toNat then true
    else if b.toNat < a.toNat then false
    else charListLt as bs

/-- Strict text ordering on column names, as `ORDER BY variable` sorts. -/
def strLt (s t : String) : Bool := charListLt s.data t.data

/-- `ORDER BY variable, UTC_TIME` over the union of all channel series. -/
def sortFinal (l : List OutRow) : List OutRow :=
  l.insertionSort (fun a b =>
    (strLt a.varName b.varName || (a.varName == b.varName && decide (a.UTC_TIME ≤ b.UTC_TIME)))
      = true)

/-- `DataFetcher.query_data_actual_advanced` from src/data_utils.py.  `none`
models the sqlite error raised when a column name outside the schema is
interpolated into the SQL; `some []` is the early empty `DataFrame` return. -/
def query_data_actual_advanced (store : List Row) (start_dt_str end_dt_str : String)
    (needed_db_cols : List String) (step : Nat) : Option (List OutRow) :=
  let stamp_od := generate_stamp start_dt_str
  let stamp_do := generate_stamp end_dt_str
  if stamp_od = -1 ∨ stamp_do = -1 ∨ needed_db_cols = [] then some []
  else if needed_db_cols.all (fun c => validCols.contains c) then
    some (sortFinal (needed_db_cols.flatMap (chanOut store stamp_od stamp_do step)))
  else none

/-! ### Cumulative Counter Store (`TOTAL` table), melt and delta aggregation -/

/-- A row of the result of `query_data_total`: only `UTC_TIME` and the six
selected channels; the OUT columns are not part of the projection. -/
structure TotalQRow where
  UTC_TIME : Int
  U_IN : Int
  V_IN : Int
  W_IN : Int
  ATLAS : Int
  BUPI : Int
  RENDER : Int
deriving DecidableEq, Repr

/-- `DataFetcher.query_data_total` from src/data_utils.py: select the six
channels in range ordered by `UTC_TIME`; empty result on a `-1` stamp. -/
def query_data_total (store : List Row) (start_dt end_dt : String) : List TotalQRow :=
  let stamp_od := generate_stamp start_dt
  let stamp_do := generate_stamp end_dt
  if stamp_od = -1 ∨ stamp_do = -1 then []
  else ((store.filter (fun r =>
      decide (stamp_od ≤ r.UTC_TIME) && decide (r.UTC_TIME ≤ stamp_do))).insertionSort
      (fun a b => a.UTC_TIME ≤ b.UTC_TIME)).map
    (fun r => ⟨r.UTC_TIME, r.U_IN, r.V_IN, r.W_IN, r.ATLAS, r.BUPI, r.RENDER⟩)

/-- One record of the melted long-form frame stored in `df-store-total`. -/
structure StoredRec where
  UTC_STAMP : Int
  varName : String
  value : Int
deriving DecidableEq, Repr

/-- The `value_vars` of the melt, in source order. -/
def meltVars : List String := ["U_IN", "V_IN", "W_IN", "ATLAS", "BUPI", "RENDER"]

/-- Projection of a queried TOTAL row on a melt variable. -/
def getTotalCol (c : String) (r : TotalQRow) : Int :=
  if c = "U_IN" then r.U_IN else if c = "V_IN" then r.V_IN
  else if c = "W_IN" then r.W_IN else if c = "ATLAS" then r.ATLAS
  else if c = "BUPI" then r.BUPI else r.RENDER

/-- `pd.melt(...)`: one long-form record per (row, value_var), emitted
value-variable major as pandas does. -/
def meltTotal (qrows : List TotalQRow) : List StoredRec :=
  meltVars.flatMap (fun c => qrows.map (fun r => ⟨r.UTC_TIME, c, getTotalCol c r⟩))

/-- `df[df.variable.isin(vars0)].groupby("UTC_STAMP", as_index=False)["value"]
.sum()` tagged with a new variable name; group keys emitted in ascending stamp
order as pandas does. -/
def sumPerStamp (vars0 : List String) (newVar : String) (recs : List StoredRec) :
    List StoredRec :=
  let sel := recs.filter (fun r => vars0.contains r.varName)
  (((sel.map (fun r => r.UTC_STAMP)).dedup).insertionSort (fun a b => a ≤ b)).map
    (fun t =>
      ⟨t, newVar, ((sel.filter (fun r => r.UTC_STAMP == t)).map (fun r => r.value)).sum⟩)

/-- `update_total_data_store` from src/total_callbacks.py: resolve the range,
query TOTAL, melt, append the synthetic `SUM_IN` and `MACHINES` rows.  `none`
covers the Python `None` returns (no dates / empty query result); a resolver
exception also yields `none` (the store is then simply not updated). -/
def update_total_data_store (store : List Row) (time_unit time_value : Option String) :
    Option (List StoredRec) :=
  match compute_start_end time_unit time_value with
  | none => none
  | some (os, oe) =>
    match os, oe with
    | some start_date, some end_date =>
      if start_date.isEmpty || end_date.isEmpty then none
      else
        let start_dt := start_date ++ " 00:00:00"
        let end_dt := end_date ++ " 23:59:59"
        let df_total := query_data_total store start_dt end_dt
        if df_total = [] then none
        else
          let melted := meltTotal df_total
          some (melted ++ sumPerStamp ["U_IN", "V_IN", "W_IN"] "SUM_IN" melted
            ++ sumPerStamp ["ATLAS", "BUPI", "RENDER"] "MACHINES" melted)
    | _, _ => none

/-- Proleptic-Gregorian (year, month, day) of an epoch day count (days since
1970-01-01); the standard civil-from-days algorithm.  Used only to compute
month/year bucket keys. -/
def civilFromDays (z0 : Int) : Int × Int × Int :=
  let z := z0 + 719468
  let era := Int.fdiv z 146097
  let doe := z - era * 146097
  let yoe := (doe - doe / 1460 + doe / 36524 - doe / 146096) / 400
  let y := yoe + era * 400
  let doy := doe - (365 * yoe + yoe / 4 - yoe / 100)
  let mp := (5 * doy + 2) / 153
  let d := doy - (153 * mp + 2) / 5 + 1
  let m := mp + (if mp < 10 then 3 else -9)
  (y + (if m ≤ 2 then 1 else 0), m, d)

/-- Monday of the week containing epoch day `n` (epoch day 0, 1970-01-01, is
a Thursday); the `start_time` of a pandas weekly period. -/
def mondayOf (n : Int) : Int := n - (n + 3).emod 7

/-- A bucket key assigned by `update_total_graph`: the start instant of the
enclosing day/week/month/year, or the single "All Data" bucket. -/
inductive Period where
  | dayP (n : Int)
  | weekP (n : Int)
  | monthP (y m : Int)
  | yearP (y : Int)
  | allData
deriving DecidableEq, Repr

/-- Bucket of a timestamp for the chosen aggregation level ('T' week,
'M' month, 'D' day, 'R' year, anything else the "All Data" bucket). -/
def periodOf (aggregation_level : String) (t : Int) : Period :=
  if aggregation_level = "T" then .weekP (mondayOf (dayOfStamp t))
  else if aggregation_level = "M" then
    .monthP (civilFromDays (dayOfStamp t)).1 (civilFromDays (dayOfStamp t)).2.1
  else if aggregation_level = "D" then .dayP (dayOfStamp t)
  else if aggregation_level = "R" then .yearP (civilFromDays (dayOfStamp t)).1
  else .allData

/-- Sort key reproducing pandas' ordering of period start times; the periods
of a single invocation always share one constructor. -/
def periodKey : Period → Int
  | .dayP n => n
  | .weekP n => n
  | .monthP y m => 12 * y + m
  | .yearP y => y
  | .allData => 0

/-- `sort_values(['period','time'])`, stable within equal keys. -/
def sortByPeriodTime (lvl : String) (recs : List StoredRec) : List StoredRec :=
  recs.insertionSort (fun a b =>
    periodKey (periodOf lvl a.UTC_STAMP) < periodKey (periodOf lvl b.UTC_STAMP) ∨
      (periodKey (periodOf lvl a.UTC_STAMP) = periodKey (periodOf lvl b.UTC_STAMP)
        ∧ a.UTC_STAMP ≤ b.UTC_STAMP))

/-- `groupby(['period','variable'])` group keys, in order of first appearance
(pandas emits groups sorted by key; the claims are insensitive to group
emission order). -/
def aggKeysOf (lvl : String) (sorted0 : List StoredRec) : List (Period × String) :=
  (sorted0.map (fun r => (periodOf lvl r.UTC_STAMP, r.varName))).dedup

/-- The rows of one (period, variable) group, in sorted-frame order. -/
def groupOf (lvl : String) (sorted0 : List StoredRec) (k : Period × String) :
    List StoredRec :=
  sorted0.filter (fun r => decide (periodOf lvl r.UTC_STAMP = k.1) && r.varName == k.2)

/-- A row of `df_agg`: one DeltaRecord. -/
structure AggRow where
  period : Period
  varName : String
  value : Int
deriving DecidableEq, Repr

/-- `groupby(['period','variable']).agg(first, last)` followed by
`value = last_value - first_value`. -/
def aggRecords (lvl : String) (recs : List StoredRec) : List AggRow :=
  let sorted0 := sortByPeriodTime lvl recs
  (aggKeysOf lvl sorted0).map (fun k =>
    let g := groupOf lvl sorted0 k
    ⟨k.1, k.2,
      ((g.getLast?.map (fun r => r.value)).getD 0) - ((g.head?.map (fun r => r.value)).getD 0)⟩)

/-- `pd.to_datetime(t, unit='s', errors='coerce')` succeeds iff the
nanosecond count fits in a signed 64-bit integer; otherwise it yields NaT. -/
def stampConvOk (t : Int) : Bool :=
  decide (-9223372036854775808 ≤ t * 1000000000) &&
    decide (t * 1000000000 ≤ 9223372036854775807)

/-- Result of `update_total_graph`: one of the three error figures, or a bar
chart of the aggregated DeltaRecords with the pass-through `barmode`. -/
inductive TotalGraphOut where
  | noData
  | convError
  | noDataAfterAgg
  | chart (records : List AggRow) (barmode : String)
deriving DecidableEq, Repr

/-- `update_total_graph` from src/total_callbacks.py.  The outer `none`
models a resolver exception escaping the callback. -/
def update_total_graph (stored_data : Option (List StoredRec))
    (aggregation_level bar_mode : String) (time_unit time_value : Option String) :
    Option TotalGraphOut :=
  match compute_start_end time_unit time_value with
  | none => none
  | some (os, oe) =>
    some (
      match stored_data with
      | none => .noData
      | some recs =>
        if recs.isEmpty || falsyOpt os || falsyOpt oe then .noData
        else if recs.any (fun r => !stampConvOk r.UTC_STAMP) then .convError
        else
          let out := aggRecords aggregation_level recs
          if out.isEmpty then .noDataAfterAgg
          else .chart out bar_mode)

/-- The DeltaRecords carried by a callback result (empty for error figures). -/
def recordsOf : Option TotalGraphOut → List AggRow
  | some (.chart recs _) => recs
  | _ => []

/-- Forget the barmode rendering hint of a callback result. -/
def stripBarMode : Option TotalGraphOut → Option TotalGraphOut
  | some (.chart recs _) => some (.chart recs "")
  | x => x

/-! ### Helper lemmas on formatting, parsing and day numbers -/

theorem toDigitsCore_ne_nil (b fuel n : Nat) (ds : List Char) (h : 0 < fuel ∨ ds ≠ []) :
    Nat.toDigitsCore b fuel n ds ≠ [] := by
  induction fuel generalizing n ds with
  | zero =>
    have hds : ds ≠ [] := h.resolve_left (by omega)
    simpa [Nat.toDigitsCore] using hds
  | succ fuel ih =>
    unfold Nat.toDigitsCore
    dsimp only
    split
    · simp
    · exact ih _ _ (Or.inr (by simp))

theorem Nat_repr_ne_empty (n : Nat) : Nat.repr n ≠ "" := by
  intro h
  have hd : Nat.toDigits 10 n = [] := by
    have hdata : (Nat.repr n).data = ("" : String).data := by rw [h]
    simpa [Nat.repr, Nat.toDigits, List.asString] using hdata
  exact toDigitsCore_ne_nil 10 (n + 1) n [] (Or.inl (by omega))
    (by simpa [Nat.toDigits] using hd)

theorem pad4_isEmpty (y : Nat) : (pad4 y).isEmpty = false := by
  rw [Bool.eq_false_iff, Ne, String.isEmpty_iff]
  unfold pad4
  split_ifs <;> intro h <;>
    first
      | exact Nat_repr_ne_empty y h
      | (have hd := congrArg String.data h
         simp [String.data_append] at hd)

theorem isEmpty_false_of_ne {v : String} (hv : v ≠ "") : v.isEmpty = false :=
  Bool.eq_false_iff.mpr (fun hc => hv ((String.isEmpty_iff _).mp hc))

theorem pad4_jan1 (y : Nat) : pad4 y ++ "-01-01" = formatDate ⟨y, 1, 1⟩ := by
  simp only [formatDate]
  rw [String.append_assoc, String.append_assoc, String.append_assoc]
  rfl

theorem pad4_dec31 (y : Nat) : pad4 y ++ "-12-31" = formatDate ⟨y, 12, 31⟩ := by
  simp only [formatDate]
  rw [String.append_assoc, String.append_assoc, String.append_assoc]
  rfl

theorem parseDateChars_valid {cs : List Char} {dt : Date}
    (h : parseDateChars cs = some dt) : ValidDate dt := by
  unfold parseDateChars at h
  repeat' split at h
  all_goals simp_all

theorem parseDate_valid {s : String} {dt : Date} (h : parseDate s = some dt) :
    ValidDate dt := parseDateChars_valid h

theorem dayNumber_le_monthEnd {dt : Date} (h : ValidDate dt) :
    dayNumber dt ≤ dayNumber ⟨dt.year, dt.month, daysInMonth dt.year dt.month⟩ := by
  obtain ⟨h1, h2, h3, h4, h5⟩ := h
  simp only [dayNumber]
  omega

theorem dayNumber_jan1_le_dec31 (y : Nat) :
    dayNumber ⟨y, 1, 1⟩ ≤ dayNumber ⟨y, 12, 31⟩ := by
  simp only [dayNumber, daysBeforeMonth_one, daysBeforeMonth_twelve]
  split_ifs <;> omega

/-! ### Claim theorems: Time/Range Resolver and step policy -/

/-- C5: for every valid (unit, value) pair `compute_start_end` returns
start ≤ end; `year` resolves to Jan 1 – Dec 31 of that year; `month` ends on
the last calendar day of the month (leap years included: Feb 2024 → 29,
Feb 2023 → 28); `week` ends six days after its start; `day` has start = end;
and a missing/falsy unit or value yields `(None, None)`. -/
theorem C5_time_range_resolver :
    (∀ unit value, (falsyOpt unit || falsyOpt value) = true →
      compute_start_end unit value = some (none, none))
    ∧ (∀ y : Nat, 1 ≤ y → y ≤ 9999 →
        compute_start_end (some "year") (some (pad4 y))
          = some (some (formatDate ⟨y, 1, 1⟩), some (formatDate ⟨y, 12, 31⟩))
        ∧ dayNumber ⟨y, 1, 1⟩ ≤ dayNumber ⟨y, 12, 31⟩)
    ∧ (∀ v dt, v ≠ "" → parseDate (v ++ "-01") = some dt →
        compute_start_end (some "month") (some v)
          = some (some (v ++ "-01"),
              some (formatDate ⟨dt.year, dt.month, daysInMonth dt.year dt.month⟩))
        ∧ dayNumber dt ≤ dayNumber ⟨dt.year, dt.month, daysInMonth dt.year dt.month⟩
        ∧ daysInMonth 2024 2 = 29 ∧ daysInMonth 2023 2 = 28)
    ∧ (∀ v dt, v ≠ "" → parseDate v = some dt →
        compute_start_end (some "week") (some v)
          = some (some v, some (formatDate (addDays 6 dt)))
        ∧ dayNumber (addDays 6 dt) = dayNumber dt + 6)
    ∧ (∀ v, v ≠ "" → compute_start_end (some "day") (some v) = some (some v, some v)) := by
  refine ⟨?_, ?_, ?_, ?_, ?_⟩
  · intro unit value hf
    unfold compute_start_end
    simp [hf]
  · intro y hy1 hy2
    have hfv : falsyOpt (some (pad4 y)) = false := pad4_isEmpty y
    constructor
    · unfold compute_start_end
      simp [falsyOpt, pad4_isEmpty, pad4_jan1, pad4_dec31]
      decide
    · exact dayNumber_jan1_le_dec31 y
  · intro v dt hv hp
    have hfv : falsyOpt (some v) = false := isEmpty_false_of_ne hv
    refine ⟨?_, dayNumber_le_monthEnd (parseDate_valid hp), by decide, by decide⟩
    unfold compute_start_end
    simp only [falsyOpt] at hfv ⊢
    simp [hfv, hp]
    decide
  · intro v dt hv hp
    have hfv : falsyOpt (some v) = false := isEmpty_false_of_ne hv
    constructor
    · unfold compute_start_end
      simp only [falsyOpt] at hfv ⊢
      simp [hfv, hp]
      decide
    · exact dayNumber_addDays (parseDate_valid hp) 6
  · intro v hv
    have hfv : falsyOpt (some v) = false := isEmpty_false_of_ne hv
    unfold compute_start_end
    simp only [falsyOpt] at hfv ⊢
    simp [hfv]
    decide

/-- Witness for C5 at concrete inputs. -/
theorem C5_witness :
    compute_start_end none (some "x") = some (none, none)
    ∧ compute_start_end (some "year") (some "2024")
        = some (some "2024-01-01", some "2024-12-31")
    ∧ compute_start_end (some "month") (some "2024-02")
        = some (some "2024-02-01", some "2024-02-29")
    ∧ compute_start_end (some "month") (some "2023-02")
        = some (some "2023-02-01", some "2023-02-28")
    ∧ compute_start_end (some "week") (some "2023-12-28")
        = some (some "2023-12-28", some "2024-01-03")
    ∧ compute_start_end (some "day") (some "2024-02-29")
        = some (some "2024-02-29", some "2024-02-29") := by
  refine ⟨C5_time_range_resolver.1 none (some "x") (by decide), ?_, ?_, ?_, ?_, ?_⟩
  · exact ((C5_time_range_resolver.2.1 2024 (by decide) (by decide)).1).trans (by decide)
  · exact ((C5_time_range_resolver.2.2.1 "2024-02" ⟨2024, 2, 1⟩ (by decide) (by decide)).1).trans
      (by decide)
  · exact ((C5_time_range_resolver.2.2.1 "2023-02" ⟨2023, 2, 1⟩ (by decide) (by decide)).1).trans
      (by decide)
  · exact ((C5_time_range_resolver.2.2.2.1 "2023-12-28" ⟨2023, 12, 28⟩ (by decide)
      (by decide)).1).trans (by decide)
  · exact C5_time_range_resolver.2.2.2.2 "2024-02-29" (by decide)

/-- C9: a non-empty unit outside {year, month, week} falls through to the
`day` branch: `compute_start_end` returns `(value, value)` with no unit
validation. -/
theorem C9_unknown_unit_day_fallthrough (u v : String) (hu : u ≠ "") (hv : v ≠ "")
    (h1 : u ≠ "year") (h2 : u ≠ "month") (h3 : u ≠ "week") :
    compute_start_end (some u) (some v) = some (some v, some v)
    ∧ compute_start_end (some u) (some v) = compute_start_end (some "day") (some v) := by
  have hfu : falsyOpt (some u) = false := isEmpty_false_of_ne hu
  have hfv : falsyOpt (some v) = false := isEmpty_false_of_ne hv
  have hmain : compute_start_end (some u) (some v) = some (some v, some v) := by
    unfold compute_start_end
    simp only [falsyOpt] at hfu hfv ⊢
    simp [hfu, hfv, h1, h2, h3]
  refine ⟨hmain, hmain.trans ?_⟩
  unfold compute_start_end
  have hfd : ("day" : String).isEmpty = false := by decide
  simp only [falsyOpt] at hfv ⊢
  simp [hfv, hfd]

/-- Witness for C9: the unit "hour" behaves exactly like "day". -/
theorem C9_witness :
    compute_start_end (some "hour") (some "2024-01-15")
        = some (some "2024-01-15", some "2024-01-15")
    ∧ compute_start_end (some "hour") (some "2024-01-15")
        = compute_start_end (some "day") (some "2024-01-15") :=
  C9_unknown_unit_day_fallthrough "hour" "2024-01-15" (by decide) (by decide)
    (by decide) (by decide) (by decide)

/-- C4: the caller-computed sampling step is
`max(1, 10 * (whole weeks spanned by the range))`; every range spanning at
most six days (single day, single week) gets step 1. -/
theorem C4_step_policy (s e : String) (ds de : Date)
    (hs : parseDate s = some ds) (he : parseDate e = some de) :
    compute_sampling_step s e
      = some (max 1 (10 * (max ((dayNumber de : Int) - dayNumber ds) 0 / 7)))
    ∧ ((dayNumber de : Int) - dayNumber ds ≤ 6 → compute_sampling_step s e = some 1) := by
  constructor
  · unfold compute_sampling_step
    rw [hs, he]
  · intro hle
    unfold compute_sampling_step
    rw [hs, he]
    show some (max 1 (10 * (max ((dayNumber de : Int) - dayNumber ds) 0 / 7))) = some 1
    exact congrArg some (by omega)

/-- Witness for C4: a single-day and a full single-week range both sample
every row. -/
theorem C4_witness :
    compute_sampling_step "2024-03-05" "2024-03-05" = some 1
    ∧ compute_sampling_step "2024-01-01" "2024-01-07" = some 1 := by
  constructor
  · exact (C4_step_policy "2024-03-05" "2024-03-05" ⟨2024, 3, 5⟩ ⟨2024, 3, 5⟩ (by decide)
      (by decide)).2 (by decide)
  · exact (C4_step_policy "2024-01-01" "2024-01-07" ⟨2024, 1, 1⟩ ⟨2024, 1, 7⟩ (by decide)
      (by decide)).2 (by decide)

/-! ### Claim theorems: malformed-timestamp signalling -/

theorem generate_stamp_neg_of_parse_fail {s : String}
    (h : parseDateTimeChars (stripChars s.data) = none) : generate_stamp s = -1 := by
  unfold generate_stamp
  rw [h]

/-- C3 counterexample: a run whose start timestamp is malformed, against a
store that does hold data, is indistinguishable — at the query layer and at
both TOTAL callbacks — from a well-formed run against an empty store: both
produce the same empty result / `None` store / "No data" figure.  No distinct
parse-failure status value exists. -/
theorem C3_counterexample :
    query_data_total [⟨1704067200, 5, 7, 9, 1, 1, 1, 2, 3, 4⟩]
        "garbage 00:00:00" "garbage 23:59:59"
      = query_data_total [] "2024-01-01 00:00:00" "2024-01-01 23:59:59"
    ∧ update_total_data_store [⟨1704067200, 5, 7, 9, 1, 1, 1, 2, 3, 4⟩]
        (some "day") (some "garbage")
      = update_total_data_store [] (some "day") (some "2024-01-01")
    ∧ update_total_graph (update_total_data_store [⟨1704067200, 5, 7, 9, 1, 1, 1, 2, 3, 4⟩]
          (some "day") (some "garbage")) "T" "stack" (some "day") (some "garbage")
      = update_total_graph (update_total_data_store [] (some "day") (some "2024-01-01"))
          "T" "stack" (some "day") (some "2024-01-01")
    ∧ update_total_graph (update_total_data_store [⟨1704067200, 5, 7, 9, 1, 1, 1, 2, 3, 4⟩]
          (some "day") (some "garbage")) "T" "stack" (some "day") (some "garbage")
      = some TotalGraphOut.noData
    ∧ query_data_actual_advanced [⟨1704067200, 5, 7, 9, 1, 1, 1, 2, 3, 4⟩]
        "garbage 00:00:00" "garbage 23:59:59" ["U_IN"] 1
      = query_data_actual_advanced [] "2024-01-01 00:00:00" "2024-01-01 23:59:59" ["U_IN"] 1 := by
  refine ⟨by decide, by decide, by decide, by decide, by decide⟩

/-- C3 (amended): a start or end timestamp string failing the strict
`YYYY-MM-DD HH:MM:SS` parse makes the query functions return the empty result
without consulting the store (the result is identical for every store), but
that empty result is exactly the "no data" result — the failure is not
reported through any distinct status value. -/
theorem C3_malformed_timestamp_amended (store : List Row) (s e : String)
    (h : parseDateTimeChars (stripChars s.data) = none ∨
         parseDateTimeChars (stripChars e.data) = none) :
    query_data_total store s e = []
    ∧ (∀ cols step, query_data_actual_advanced store s e cols step = some [])
    ∧ query_data_total store s e = query_data_total [] s e := by
  have hstamp : generate_stamp s = -1 ∨ generate_stamp e = -1 := by
    rcases h with h | h
    · exact Or.inl (generate_stamp_neg_of_parse_fail h)
    · exact Or.inr (generate_stamp_neg_of_parse_fail h)
  have hq : ∀ st : List Row, query_data_total st s e = [] := by
    intro st
    unfold query_data_total
    rcases hstamp with h' | h' <;> simp [h']
  refine ⟨hq store, ?_, (hq store).trans (hq []).symm⟩
  intro cols step
  unfold query_data_actual_advanced
  rcases hstamp with h' | h' <;> simp [h']

/-- Witness for the amended C3 at a concrete malformed input. -/
theorem C3_witness :
    query_data_total [⟨1704067200, 5, 7, 9, 1, 1, 1, 2, 3, 4⟩]
        "2024-01-01 00:00:00" "2024-13-01 23:59:59" = []
    ∧ query_data_actual_advanced [⟨1704067200, 5, 7, 9, 1, 1, 1, 2, 3, 4⟩]
        "2024-01-01 00:00:00" "2024-13-01 23:59:59" ["ATLAS"] 3 = some [] := by
  have h := C3_malformed_timestamp_amended [⟨1704067200, 5, 7, 9, 1, 1, 1, 2, 3, 4⟩]
    "2024-01-01 00:00:00" "2024-13-01 23:59:59" (Or.inr (by decide))
  exact ⟨h.1, h.2.1 ["ATLAS"] 3⟩

/-! ### Claim theorems: bar_mode noninterference -/

/-- C8: two `update_total_graph` invocations that are identical except for
`bar_mode` compute identical DeltaRecords (and identical results up to the
pass-through barmode field): `bar_mode` is a pure rendering hint. -/
theorem C8_bar_mode_noninterference (stored_data : Option (List StoredRec))
    (aggregation_level b1 b2 : String) (time_unit time_value : Option String) :
    stripBarMode (update_total_graph stored_data aggregation_level b1 time_unit time_value)
      = stripBarMode (update_total_graph stored_data aggregation_level b2 time_unit time_value)
    ∧ recordsOf (update_total_graph stored_data aggregation_level b1 time_unit time_value)
      = recordsOf (update_total_graph stored_data aggregation_level b2 time_unit time_value) := by
  constructor <;>
    (unfold update_total_graph
     cases compute_start_end time_unit time_value with
     | none => rfl
     | some p =>
       obtain ⟨os, oe⟩ := p
       cases stored_data with
       | none => rfl
       | some recs =>
         dsimp only
         split_ifs <;> rfl)

/-! ### Claim theorems: synthetic channels (SUM_IN, MACHINES) -/

theorem filter_utc_eq_single {l : List TotalQRow}
    (hnd : (l.map (fun x => x.UTC_TIME)).Nodup) {r : TotalQRow} (hr : r ∈ l) :
    l.filter (fun x => x.UTC_TIME == r.UTC_TIME) = [r] := by
  induction l with
  | nil => cases hr
  | cons a tl ih =>
    simp only [List.map_cons, List.nodup_cons] at hnd
    rw [List.filter_cons]
    rcases List.mem_cons.mp hr with rfl | hrtl
    · rw [if_pos (by simp)]
      have htl : tl.filter (fun x => x.UTC_TIME == r.UTC_TIME) = [] := by
        rw [List.filter_eq_nil_iff]
        intro x hx hc
        have hx2 : x.UTC_TIME = r.UTC_TIME := by simpa using hc
        exact hnd.1 (hx2 ▸ List.mem_map_of_mem (fun y => y.UTC_TIME) hx)
      rw [htl]
    · have hne : ¬ ((a.UTC_TIME == r.UTC_TIME) = true) := by
        intro hc
        have hc2 : a.UTC_TIME = r.UTC_TIME := by simpa using hc
        exact hnd.1 (hc2 ▸ List.mem_map_of_mem (fun y => y.UTC_TIME) hrtl)
      rw [if_neg hne]
      exact ih hnd.2 hrtl

theorem mem_meltTotal_varName {qrows : List TotalQRow} {x : StoredRec}
    (hx : x ∈ meltTotal qrows) : x.varName ∈ meltVars := by
  unfold meltTotal at hx
  rcases List.mem_flatMap.mp hx with ⟨c, hc, hx2⟩
  rcases List.mem_map.mp hx2 with ⟨r, _, rfl⟩
  exact hc

theorem mem_sumPerStamp_varName {vars0 : List String} {nv : String}
    {recs : List StoredRec} {x : StoredRec} (hx : x ∈ sumPerStamp vars0 nv recs) :
    x.varName = nv := by
  unfold sumPerStamp at hx
  rcases List.mem_map.mp hx with ⟨t, _, rfl⟩
  rfl

theorem meltTotal_filter_in {qrows : List TotalQRow}
    (hnd : (qrows.map (fun x => x.UTC_TIME)).Nodup) {r : TotalQRow} (hr : r ∈ qrows) :
    (meltTotal qrows).filter
        (fun x => (["U_IN", "V_IN", "W_IN"] : List String).contains x.varName
          && (x.UTC_STAMP == r.UTC_TIME))
      = [⟨r.UTC_TIME, "U_IN", r.U_IN⟩, ⟨r.UTC_TIME, "V_IN", r.V_IN⟩,
         ⟨r.UTC_TIME, "W_IN", r.W_IN⟩] := by
  have key := filter_utc_eq_single hnd hr
  simp only [meltTotal, meltVars, List.flatMap_cons, List.flatMap_nil, List.append_nil,
    List.filter_append, List.filter_map, Function.comp_def]
  simp only [List.contains_cons, List.contains_nil, beq_iff_eq, List.elem_eq_mem,
    List.mem_cons, List.not_mem_nil]
  simp [key]
  exact ⟨rfl, rfl, rfl⟩

theorem meltTotal_filter_machines {qrows : List TotalQRow}
    (hnd : (qrows.map (fun x => x.UTC_TIME)).Nodup) {r : TotalQRow} (hr : r ∈ qrows) :
    (meltTotal qrows).filter
        (fun x => (["ATLAS", "BUPI", "RENDER"] : List String).contains x.varName
          && (x.UTC_STAMP == r.UTC_TIME))
      = [⟨r.UTC_TIME, "ATLAS", r.ATLAS⟩, ⟨r.UTC_TIME, "BUPI", r.BUPI⟩,
         ⟨r.UTC_TIME, "RENDER", r.RENDER⟩] := by
  have key := filter_utc_eq_single hnd hr
  simp only [meltTotal, meltVars, List.flatMap_cons, List.flatMap_nil, List.append_nil,
    List.filter_append, List.filter_map, Function.comp_def]
  simp only [List.contains_cons, List.contains_nil, beq_iff_eq, List.elem_eq_mem,
    List.mem_cons, List.not_mem_nil]
  simp [key]
  exact ⟨rfl, rfl, rfl⟩

theorem sumPerStamp_countP (vars0 : List String) (nv : String) (recs : List StoredRec)
    (t : Int) :
    (sumPerStamp vars0 nv recs).countP
        (fun x => x.varName == nv && x.UTC_STAMP == t)
      = if t ∈ ((recs.filter (fun x => vars0.contains x.varName)).map
          (fun x => x.UTC_STAMP)) then 1 else 0 := by
  unfold sumPerStamp
  rw [List.countP_map]
  rw [List.countP_congr (q := fun t' => t' == t)
    (by intro x hx; simp [Function.comp])]
  have hcount : List.countP (fun t' => t' == t)
      (((recs.filter (fun x => vars0.contains x.varName)).map
        (fun x => x.UTC_STAMP)).dedup.insertionSort (fun a b => a ≤ b))
      = List.count t ((recs.filter (fun x => vars0.contains x.varName)).map
        (fun x => x.UTC_STAMP)).dedup :=
    (List.perm_insertionSort _ _).countP_eq _
  rw [hcount]
  by_cases hmem : t ∈ ((recs.filter (fun x => vars0.contains x.varName)).map
      (fun x => x.UTC_STAMP))
  · rw [if_pos hmem]
    exact List.count_eq_one_of_mem (List.nodup_dedup _) (List.mem_dedup.mpr hmem)
  · rw [if_neg hmem]
    exact List.count_eq_zero.mpr (fun hc => hmem (List.mem_dedup.mp hc))

theorem sumPerStamp_mem (vars0 : List String) (nv : String) (recs : List StoredRec)
    {t : Int}
    (ht : t ∈ ((recs.filter (fun x => vars0.contains x.varName)).map
      (fun x => x.UTC_STAMP))) :
    (⟨t, nv, (((recs.filter (fun x => vars0.contains x.varName)).filter
        (fun x => x.UTC_STAMP == t)).map (fun x => x.value)).sum⟩ : StoredRec)
      ∈ sumPerStamp vars0 nv recs := by
  unfold sumPerStamp
  refine List.mem_map.mpr ⟨t, ?_, rfl⟩
  exact ((List.perm_insertionSort _ _).mem_iff).mpr (List.mem_dedup.mpr ht)

theorem mem_meltTotal_of {qrows : List TotalQRow} {r : TotalQRow} (hr : r ∈ qrows)
    (c : String) (hc : c ∈ meltVars) :
    (⟨r.UTC_TIME, c, getTotalCol c r⟩ : StoredRec) ∈ meltTotal qrows := by
  unfold meltTotal
  exact List.mem_flatMap.mpr ⟨c, hc, List.mem_map_of_mem _ hr⟩

theorem update_total_data_store_shape {store : List Row} {u v : Option String}
    {recs : List StoredRec} (h : update_total_data_store store u v = some recs) :
    ∃ s e, recs = meltTotal (query_data_total store s e)
      ++ sumPerStamp ["U_IN", "V_IN", "W_IN"] "SUM_IN"
          (meltTotal (query_data_total store s e))
      ++ sumPerStamp ["ATLAS", "BUPI", "RENDER"] "MACHINES"
          (meltTotal (query_data_total store s e)) := by
  unfold update_total_data_store at h
  split at h
  · exact absurd h (by simp)
  · split at h
    · split at h
      · exact absurd h (by simp)
      · dsimp only at h
        split at h
        · exact absurd h (by simp)
        · exact ⟨_, _, (Option.some_inj.mp h).symm⟩
    · exact absurd h (by simp)

/-- C7: before bucketing, for every timestamp of the fetched counter data the
aggregator's stored frame carries exactly one `SUM_IN` record whose value is
`U_IN + V_IN + W_IN` of the row at that timestamp, and exactly one `MACHINES`
record whose value is `ATLAS + BUPI + RENDER`; and the records produced by
`update_total_data_store` are exactly the melted frame plus those synthetic
rows. -/
theorem C7_synthetic_channels (qrows : List TotalQRow)
    (hnd : (qrows.map (fun x => x.UTC_TIME)).Nodup) (r : TotalQRow) (hr : r ∈ qrows) :
    ((meltTotal qrows ++ sumPerStamp ["U_IN", "V_IN", "W_IN"] "SUM_IN" (meltTotal qrows)
        ++ sumPerStamp ["ATLAS", "BUPI", "RENDER"] "MACHINES" (meltTotal qrows)).countP
        (fun x => x.varName == "SUM_IN" && x.UTC_STAMP == r.UTC_TIME) = 1)
    ∧ (⟨r.UTC_TIME, "SUM_IN", r.U_IN + r.V_IN + r.W_IN⟩ : StoredRec)
        ∈ (meltTotal qrows ++ sumPerStamp ["U_IN", "V_IN", "W_IN"] "SUM_IN" (meltTotal qrows)
            ++ sumPerStamp ["ATLAS", "BUPI", "RENDER"] "MACHINES" (meltTotal qrows))
    ∧ ((meltTotal qrows ++ sumPerStamp ["U_IN", "V_IN", "W_IN"] "SUM_IN" (meltTotal qrows)
        ++ sumPerStamp ["ATLAS", "BUPI", "RENDER"] "MACHINES" (meltTotal qrows)).countP
        (fun x => x.varName == "MACHINES" && x.UTC_STAMP == r.UTC_TIME) = 1)
    ∧ (⟨r.UTC_TIME, "MACHINES", r.ATLAS + r.BUPI + r.RENDER⟩ : StoredRec)
        ∈ (meltTotal qrows ++ sumPerStamp ["U_IN", "V_IN", "W_IN"] "SUM_IN" (meltTotal qrows)
            ++ sumPerStamp ["ATLAS", "BUPI", "RENDER"] "MACHINES" (meltTotal qrows))
    ∧ (∀ store u v recs, update_total_data_store store u v = some recs →
        ∃ s e, recs = meltTotal (query_data_total store s e)
          ++ sumPerStamp ["U_IN", "V_IN", "W_IN"] "SUM_IN"
              (meltTotal (query_data_total store s e))
          ++ sumPerStamp ["ATLAS", "BUPI", "RENDER"] "MACHINES"
              (meltTotal (query_data_total store s e))) := by
  have hmemU : (⟨r.UTC_TIME, "U_IN", r.U_IN⟩ : StoredRec) ∈ meltTotal qrows := by
    have := mem_meltTotal_of hr "U_IN" (by decide)
    simpa [getTotalCol] using this
  have hmemA : (⟨r.UTC_TIME, "ATLAS", r.ATLAS⟩ : StoredRec) ∈ meltTotal qrows := by
    have := mem_meltTotal_of hr "ATLAS" (by decide)
    simpa [getTotalCol] using this
  have htIn : r.UTC_TIME ∈ (((meltTotal qrows).filter
      (fun x => (["U_IN", "V_IN", "W_IN"] : List String).contains x.varName)).map
      (fun x => x.UTC_STAMP)) :=
    List.mem_map.mpr ⟨⟨r.UTC_TIME, "U_IN", r.U_IN⟩,
      List.mem_filter.mpr ⟨hmemU, rfl⟩, rfl⟩
  have htMach : r.UTC_TIME ∈ (((meltTotal qrows).filter
      (fun x => (["ATLAS", "BUPI", "RENDER"] : List String).contains x.varName)).map
      (fun x => x.UTC_STAMP)) :=
    List.mem_map.mpr ⟨⟨r.UTC_TIME, "ATLAS", r.ATLAS⟩,
      List.mem_filter.mpr ⟨hmemA, rfl⟩, rfl⟩
  have hselIn : (((meltTotal qrows).filter
      (fun x => (["U_IN", "V_IN", "W_IN"] : List String).contains x.varName)).filter
      (fun x => x.UTC_STAMP == r.UTC_TIME))
      = [⟨r.UTC_TIME, "U_IN", r.U_IN⟩, ⟨r.UTC_TIME, "V_IN", r.V_IN⟩,
         ⟨r.UTC_TIME, "W_IN", r.W_IN⟩] := by
    rw [List.filter_filter]
    rw [← meltTotal_filter_in hnd hr]
    exact List.filter_congr (fun x _ => Bool.and_comm _ _)
  have hselMach : (((meltTotal qrows).filter
      (fun x => (["ATLAS", "BUPI", "RENDER"] : List String).contains x.varName)).filter
      (fun x => x.UTC_STAMP == r.UTC_TIME))
      = [⟨r.UTC_TIME, "ATLAS", r.ATLAS⟩, ⟨r.UTC_TIME, "BUPI", r.BUPI⟩,
         ⟨r.UTC_TIME, "RENDER", r.RENDER⟩] := by
    rw [List.filter_filter]
    rw [← meltTotal_filter_machines hnd hr]
    exact List.filter_congr (fun x _ => Bool.and_comm _ _)
  have hcntMelt : ∀ nv : String, nv ∉ meltVars →
      (meltTotal qrows).countP (fun x => x.varName == nv && x.UTC_STAMP == r.UTC_TIME) = 0 := by
    intro nv hnv
    rw [List.countP_eq_zero]
    intro x hx hc
    have hv : x.varName = nv := by
      have := (Bool.and_eq_true _ _).mp hc
      simpa using this.1
    exact hnv (hv ▸ mem_meltTotal_varName hx)
  have hcntOther : ∀ vars0 nv nv' , nv ≠ nv' →
      ∀ recs, (sumPerStamp vars0 nv recs).countP
        (fun x => x.varName == nv' && x.UTC_STAMP == r.UTC_TIME) = 0 := by
    intro vars0 nv nv' hne recs
    rw [List.countP_eq_zero]
    intro x hx hc
    have hv : x.varName = nv' := by
      have := (Bool.and_eq_true _ _).mp hc
      simpa using this.1
    exact hne ((mem_sumPerStamp_varName hx).symm.trans hv)
  refine ⟨?_, ?_, ?_, ?_, ?_⟩
  · rw [List.countP_append, List.countP_append,
      hcntMelt "SUM_IN" (by decide), sumPerStamp_countP, if_pos htIn,
      hcntOther ["ATLAS", "BUPI", "RENDER"] "MACHINES" "SUM_IN" (by decide) _]
  · have hm := sumPerStamp_mem ["U_IN", "V_IN", "W_IN"] "SUM_IN" (meltTotal qrows) htIn
    rw [hselIn] at hm
    have hval : ((([⟨r.UTC_TIME, "U_IN", r.U_IN⟩, ⟨r.UTC_TIME, "V_IN", r.V_IN⟩,
        ⟨r.UTC_TIME, "W_IN", r.W_IN⟩] : List StoredRec).map (fun x => x.value)).sum)
        = r.U_IN + r.V_IN + r.W_IN := by
      simp only [List.map_cons, List.map_nil, List.sum_cons, List.sum_nil]
      omega
    rw [hval] at hm
    exact List.mem_append_left _ (List.mem_append_right _ hm)
  · rw [List.countP_append, List.countP_append,
      hcntMelt "MACHINES" (by decide),
      hcntOther ["U_IN", "V_IN", "W_IN"] "SUM_IN" "MACHINES" (by decide) _,
      sumPerStamp_countP, if_pos htMach]
  · have hm := sumPerStamp_mem ["ATLAS", "BUPI", "RENDER"] "MACHINES" (meltTotal qrows) htMach
    rw [hselMach] at hm
    have hval : ((([⟨r.UTC_TIME, "ATLAS", r.ATLAS⟩, ⟨r.UTC_TIME, "BUPI", r.BUPI⟩,
        ⟨r.UTC_TIME, "RENDER", r.RENDER⟩] : List StoredRec).map (fun x => x.value)).sum)
        = r.ATLAS + r.BUPI + r.RENDER := by
      simp only [List.map_cons, List.map_nil, List.sum_cons, List.sum_nil]
      omega
    rw [hval] at hm
    exact List.mem_append_right _ hm
  · exact fun store u v recs h => update_total_data_store_shape h

/-- Witness for C7: U_IN=5, V_IN=7, W_IN=9 at one timestamp yields a SUM_IN
record of value 21. -/
theorem C7_witness :
    (⟨1704067200, "SUM_IN", 21⟩ : StoredRec)
      ∈ (meltTotal [⟨1704067200, 5, 7, 9, 2, 3, 4⟩]
        ++ sumPerStamp ["U_IN", "V_IN", "W_IN"] "SUM_IN"
            (meltTotal [⟨1704067200, 5, 7, 9, 2, 3, 4⟩])
        ++ sumPerStamp ["ATLAS", "BUPI", "RENDER"] "MACHINES"
            (meltTotal [⟨1704067200, 5, 7, 9, 2, 3, 4⟩])) :=
  (C7_synthetic_channels [⟨1704067200, 5, 7, 9, 2, 3, 4⟩] (by decide)
    ⟨1704067200, 5, 7, 9, 2, 3, 4⟩ (by decide)).2.1

/-! ### Claim theorems: the OUT channels never reach the aggregator -/

/-- The only variables the Cumulative Delta Aggregator can produce: the six
fetched channels plus the two synthetic ones.  `query_data_total` projects
only `UTC_TIME` and these six columns (`TotalQRow` carries no OUT fields). -/
def allowedTotalVars : List String :=
  ["U_IN", "V_IN", "W_IN", "ATLAS", "BUPI", "RENDER", "SUM_IN", "MACHINES"]

theorem storedRec_varName_allowed {store : List Row} {u v : Option String}
    {recs : List StoredRec} (h : update_total_data_store store u v = some recs)
    {x : StoredRec} (hx : x ∈ recs) : x.varName ∈ allowedTotalVars := by
  obtain ⟨s, e, rfl⟩ := update_total_data_store_shape h
  rcases List.mem_append.mp hx with hx1 | hx1
  · rcases List.mem_append.mp hx1 with hx2 | hx2
    · have hm := mem_meltTotal_varName hx2
      simp only [meltVars, List.mem_cons, List.not_mem_nil, or_false] at hm
      simp only [allowedTotalVars, List.mem_cons, List.not_mem_nil, or_false]
      tauto
    · rw [mem_sumPerStamp_varName hx2]
      simp [allowedTotalVars]
  · rw [mem_sumPerStamp_varName hx1]
    simp [allowedTotalVars]

theorem aggRecords_varName {lvl : String} {recs : List StoredRec} {a : AggRow}
    (ha : a ∈ aggRecords lvl recs) : ∃ x ∈ recs, x.varName = a.varName := by
  unfold aggRecords at ha
  rcases List.mem_map.mp ha with ⟨k, hk, rfl⟩
  unfold aggKeysOf at hk
  rcases List.mem_map.mp (List.mem_dedup.mp hk) with ⟨x, hx, hxe⟩
  refine ⟨x, ?_, ?_⟩
  · unfold sortByPeriodTime at hx
    exact ((List.perm_insertionSort _ _).mem_iff).mp hx
  · rw [← hxe]

theorem recordsOf_sub {stored : Option (List StoredRec)} {lvl b : String}
    {u v : Option String} {a : AggRow}
    (ha : a ∈ recordsOf (update_total_graph stored lvl b u v)) :
    ∃ recs, stored = some recs ∧ a ∈ aggRecords lvl recs := by
  unfold update_total_graph at ha
  cases hse : compute_start_end u v with
  | none =>
    rw [hse] at ha
    simp [recordsOf] at ha
  | some p =>
    obtain ⟨os, oe⟩ := p
    rw [hse] at ha
    cases stored with
    | none => simp [recordsOf] at ha
    | some recs =>
      dsimp only at ha
      by_cases h1 : (recs.isEmpty || falsyOpt os || falsyOpt oe) = true
      · rw [if_pos h1] at ha
        simp [recordsOf] at ha
      · rw [if_neg h1] at ha
        by_cases h2 : (recs.any fun r => !stampConvOk r.UTC_STAMP) = true
        · rw [if_pos h2] at ha
          simp [recordsOf] at ha
        · rw [if_neg h2] at ha
          by_cases h3 : (aggRecords lvl recs).isEmpty = true
          · rw [if_pos h3] at ha
            simp [recordsOf] at ha
          · rw [if_neg h3] at ha
            simp only [recordsOf] at ha
            exact ⟨recs, rfl, ha⟩

/-- C10: the Cumulative Delta Aggregator never outputs the OUT channels:
every stored record and every emitted DeltaRecord carries a variable from
{U_IN, V_IN, W_IN, ATLAS, BUPI, RENDER, SUM_IN, MACHINES}.  The query itself
never fetches the OUT columns: `query_data_total` projects onto `TotalQRow`,
which has no OUT fields. -/
theorem C10_no_out_channels (store : List Row) (u v : Option String)
    (lvl b : String) (recs : List StoredRec)
    (h : update_total_data_store store u v = some recs) :
    (∀ x ∈ recs, x.varName ∈ allowedTotalVars)
    ∧ (∀ a ∈ recordsOf (update_total_graph (update_total_data_store store u v) lvl b u v),
        a.varName ∈ allowedTotalVars) := by
  refine ⟨fun x hx => storedRec_varName_allowed h hx, ?_⟩
  intro a ha
  obtain ⟨recs2, hrecs2, ha2⟩ := recordsOf_sub ha
  rw [h] at hrecs2
  obtain rfl : recs = recs2 := Option.some_inj.mp hrecs2
  obtain ⟨x, hx, hxv⟩ := aggRecords_varName ha2
  exact hxv ▸ storedRec_varName_allowed h hx

/-- Witness for C10 on a one-row store and a one-day selection. -/
theorem C10_witness :
    (∀ x ∈ ([⟨1704067200, "U_IN", 5⟩, ⟨1704067200, "V_IN", 7⟩, ⟨1704067200, "W_IN", 9⟩,
        ⟨1704067200, "ATLAS", 2⟩, ⟨1704067200, "BUPI", 3⟩, ⟨1704067200, "RENDER", 4⟩,
        ⟨1704067200, "SUM_IN", 21⟩, ⟨1704067200, "MACHINES", 9⟩] : List StoredRec),
      x.varName ∈ allowedTotalVars)
    ∧ (∀ a ∈ recordsOf (update_total_graph (update_total_data_store
          [⟨1704067200, 5, 7, 9, 100, 200, 1, 2, 3, 4⟩] (some "day") (some "2024-01-01"))
          "T" "stack" (some "day") (some "2024-01-01")),
        a.varName ∈ allowedTotalVars) :=
  C10_no_out_channels [⟨1704067200, 5, 7, 9, 100, 200, 1, 2, 3, 4⟩]
    (some "day") (some "2024-01-01") "T" "stack"
    [⟨1704067200, "U_IN", 5⟩, ⟨1704067200, "V_IN", 7⟩, ⟨1704067200, "W_IN", 9⟩,
     ⟨1704067200, "ATLAS", 2⟩, ⟨1704067200, "BUPI", 3⟩, ⟨1704067200, "RENDER", 4⟩,
     ⟨1704067200, "SUM_IN", 21⟩, ⟨1704067200, "MACHINES", 9⟩] (by decide)

/-! ### Claim theorems: delta correctness -/

theorem update_total_graph_chart {recs : List StoredRec} {lvl b : String}
    {u v : Option String} {out : List AggRow} {bm : String}
    (h : update_total_graph (some recs) lvl b u v = some (TotalGraphOut.chart out bm)) :
    out = aggRecords lvl recs := by
  unfold update_total_graph at h
  cases hse : compute_start_end u v with
  | none => rw [hse] at h; cases h
  | some p =>
    obtain ⟨os, oe⟩ := p
    rw [hse] at h
    dsimp only at h
    by_cases h1 : (recs.isEmpty || falsyOpt os || falsyOpt oe) = true
    · rw [if_pos h1] at h
      simp at h
    · rw [if_neg h1] at h
      by_cases h2 : (recs.any fun r => !stampConvOk r.UTC_STAMP) = true
      · rw [if_pos h2] at h
        simp at h
      · rw [if_neg h2] at h
        by_cases h3 : (aggRecords lvl recs).isEmpty = true
        · rw [if_pos h3] at h
          simp at h
        · rw [if_neg h3] at h
          simp only [Option.some.injEq, TotalGraphOut.chart.injEq] at h
          exact h.1.symm

/-- C2: every DeltaRecord charted by `update_total_graph` comes from a
non-empty (bucket, variable) group whose rows are in timestamp order, and its
value is the last value minus the first value of that group; a one-row group
yields 0.  The concrete series [10, 15, 23] on 2024-01-01..03 bucketed as
week yields the single DeltaRecord with delta 13. -/
theorem C2_delta_correctness :
    (∀ (recs : List StoredRec) (lvl b : String) (u v : Option String)
        (out : List AggRow) (bm : String),
      update_total_graph (some recs) lvl b u v = some (TotalGraphOut.chart out bm) →
      ∀ a ∈ out,
        groupOf lvl (sortByPeriodTime lvl recs) (a.period, a.varName) ≠ []
        ∧ List.Pairwise (fun x y : StoredRec => x.UTC_STAMP ≤ y.UTC_STAMP)
            (groupOf lvl (sortByPeriodTime lvl recs) (a.period, a.varName))
        ∧ (∀ hne : groupOf lvl (sortByPeriodTime lvl recs) (a.period, a.varName) ≠ [],
            a.value =
              ((groupOf lvl (sortByPeriodTime lvl recs) (a.period, a.varName)).getLast hne).value
              - ((groupOf lvl (sortByPeriodTime lvl recs) (a.period, a.varName)).head hne).value)
        ∧ ((groupOf lvl (sortByPeriodTime lvl recs) (a.period, a.varName)).length = 1 →
            a.value = 0))
    ∧ update_total_graph (some [⟨1704067200, "U_IN", 10⟩, ⟨1704153600, "U_IN", 15⟩,
        ⟨1704240000, "U_IN", 23⟩]) "T" "stack" (some "day") (some "2024-01-01")
      = some (TotalGraphOut.chart [⟨Period.weekP 19723, "U_IN", 13⟩] "stack") := by
  constructor
  · intro recs lvl b u v out bm h a ha
    rw [update_total_graph_chart h] at ha
    unfold aggRecords at ha
    rcases List.mem_map.mp ha with ⟨k, hk, rfl⟩
    have hR : List.Pairwise (fun x y : StoredRec =>
        periodKey (periodOf lvl x.UTC_STAMP) < periodKey (periodOf lvl y.UTC_STAMP) ∨
          (periodKey (periodOf lvl x.UTC_STAMP) = periodKey (periodOf lvl y.UTC_STAMP)
            ∧ x.UTC_STAMP ≤ y.UTC_STAMP)) (sortByPeriodTime lvl recs) := by
      haveI : IsTotal StoredRec (fun x y : StoredRec =>
          periodKey (periodOf lvl x.UTC_STAMP) < periodKey (periodOf lvl y.UTC_STAMP) ∨
            (periodKey (periodOf lvl x.UTC_STAMP) = periodKey (periodOf lvl y.UTC_STAMP)
              ∧ x.UTC_STAMP ≤ y.UTC_STAMP)) := ⟨fun a b => by omega⟩
      haveI : IsTrans StoredRec (fun x y : StoredRec =>
          periodKey (periodOf lvl x.UTC_STAMP) < periodKey (periodOf lvl y.UTC_STAMP) ∨
            (periodKey (periodOf lvl x.UTC_STAMP) = periodKey (periodOf lvl y.UTC_STAMP)
              ∧ x.UTC_STAMP ≤ y.UTC_STAMP)) :=
        ⟨fun a b c hab hbc => by omega⟩
      exact List.sorted_insertionSort _ recs
    have hgPairwise : List.Pairwise (fun x y : StoredRec => x.UTC_STAMP ≤ y.UTC_STAMP)
        (groupOf lvl (sortByPeriodTime lvl recs) k) := by
      have hsub : List.Pairwise (fun x y : StoredRec =>
          periodKey (periodOf lvl x.UTC_STAMP) < periodKey (periodOf lvl y.UTC_STAMP) ∨
            (periodKey (periodOf lvl x.UTC_STAMP) = periodKey (periodOf lvl y.UTC_STAMP)
              ∧ x.UTC_STAMP ≤ y.UTC_STAMP)) (groupOf lvl (sortByPeriodTime lvl recs) k) :=
        List.Pairwise.sublist (List.filter_sublist _) hR
      refine hsub.imp_of_mem ?_
      intro x y hx hy hxy
      have hxp : periodOf lvl x.UTC_STAMP = k.1 := by
        have := (List.mem_filter.mp hx).2
        simp only [Bool.and_eq_true, decide_eq_true_eq] at this
        exact this.1
      have hyp : periodOf lvl y.UTC_STAMP = k.1 := by
        have := (List.mem_filter.mp hy).2
        simp only [Bool.and_eq_true, decide_eq_true_eq] at this
        exact this.1
      rcases hxy with hlt | ⟨_, hle⟩
      · rw [hxp, hyp] at hlt
        exact absurd hlt (lt_irrefl _)
      · exact hle
    have hne : groupOf lvl (sortByPeriodTime lvl recs) k ≠ [] := by
      unfold aggKeysOf at hk
      rcases List.mem_map.mp (List.mem_dedup.mp hk) with ⟨x, hx, hxk⟩
      have hxg : x ∈ groupOf lvl (sortByPeriodTime lvl recs) k := by
        refine List.mem_filter.mpr ⟨hx, ?_⟩
        rw [← hxk]
        simp
      exact List.ne_nil_of_mem hxg
    have hval : ∀ hne2 : groupOf lvl (sortByPeriodTime lvl recs) k ≠ [],
        (Option.map (fun r => r.value)
            (groupOf lvl (sortByPeriodTime lvl recs) k).getLast?).getD 0
          - (Option.map (fun r => r.value)
            (groupOf lvl (sortByPeriodTime lvl recs) k).head?).getD 0
        = ((groupOf lvl (sortByPeriodTime lvl recs) k).getLast hne2).value
          - ((groupOf lvl (sortByPeriodTime lvl recs) k).head hne2).value := by
      intro hne2
      rw [List.getLast?_eq_getLast_of_ne_nil hne2, List.head?_eq_head hne2]
      rfl
    have hsingle : (groupOf lvl (sortByPeriodTime lvl recs) k).length = 1 →
        (Option.map (fun r => r.value)
            (groupOf lvl (sortByPeriodTime lvl recs) k).getLast?).getD 0
          - (Option.map (fun r => r.value)
            (groupOf lvl (sortByPeriodTime lvl recs) k).head?).getD 0 = 0 := by
      intro hlen
      rcases List.length_eq_one.mp hlen with ⟨x, hx⟩
      rw [hx]
      simp
    exact ⟨hne, hgPairwise, hval, hsingle⟩
  · decide

/-- Witness for C2 on the [10, 15, 23] week-bucketed series. -/
theorem C2_witness :
    groupOf "T" (sortByPeriodTime "T" [⟨1704067200, "U_IN", 10⟩, ⟨1704153600, "U_IN", 15⟩,
        ⟨1704240000, "U_IN", 23⟩]) (Period.weekP 19723, "U_IN") ≠ []
    ∧ List.Pairwise (fun x y : StoredRec => x.UTC_STAMP ≤ y.UTC_STAMP)
        (groupOf "T" (sortByPeriodTime "T" [⟨1704067200, "U_IN", 10⟩,
          ⟨1704153600, "U_IN", 15⟩, ⟨1704240000, "U_IN", 23⟩])
          (Period.weekP 19723, "U_IN")) := by
  have h := C2_delta_correctness.1 [⟨1704067200, "U_IN", 10⟩, ⟨1704153600, "U_IN", 15⟩,
      ⟨1704240000, "U_IN", 23⟩] "T" "stack" (some "day") (some "2024-01-01")
      [⟨Period.weekP 19723, "U_IN", 13⟩] "stack" (by decide)
      ⟨Period.weekP 19723, "U_IN", 13⟩ (by decide)
  exact ⟨h.1, h.2.1⟩

/-! ### Claim theorems: peak preservation and downsampling density -/

theorem maxRowBy_mem (f : Row → Int) : ∀ (x : Row) (ys : List Row),
    maxRowBy f x ys ∈ x :: ys := by
  intro x ys
  induction ys generalizing x with
  | nil => simp [maxRowBy]
  | cons y ys ih =>
    unfold maxRowBy
    split
    · have h := ih y
      simp only [List.mem_cons] at h ⊢
      tauto
    · have h := ih x
      simp only [List.mem_cons] at h ⊢
      tauto

theorem maxRowBy_ge (f : Row → Int) : ∀ (x : Row) (ys : List Row) (z : Row),
    z ∈ x :: ys → f z ≤ f (maxRowBy f x ys) := by
  intro x ys
  induction ys generalizing x with
  | nil =>
    intro z hz
    simp only [List.mem_cons, List.not_mem_nil, or_false] at hz
    subst hz
    simp [maxRowBy]
  | cons y ys ih =>
    intro z hz
    unfold maxRowBy
    split
    · rename_i hxy
      rcases List.mem_cons.mp hz with rfl | hz2
      · exact le_trans (le_of_lt hxy) (ih y y (List.mem_cons_self _ _))
      · exact ih y z hz2
    · rename_i hxy
      rw [not_lt] at hxy
      rcases List.mem_cons.mp hz with rfl | hz2
      · exact ih z z (List.mem_cons_self _ _)
      · rcases List.mem_cons.mp hz2 with rfl | hz3
        · exact le_trans hxy (ih x x (List.mem_cons_self _ _))
        · exact ih x z (List.mem_cons_of_mem _ hz3)

theorem dailyMaxRows_spec (f : Row → Int) (rows : List Row) (d : Int)
    (hd : ∃ r ∈ rows, dayOfStamp r.UTC_TIME = d) :
    ∃ m ∈ dailyMaxRows f rows,
      dayOfStamp m.UTC_TIME = d ∧ m ∈ rows ∧
      (∀ r ∈ rows, dayOfStamp r.UTC_TIME = d → f r ≤ f m) := by
  obtain ⟨r0, hr0, hr0d⟩ := hd
  have hdmem : d ∈ (rows.map (fun r => dayOfStamp r.UTC_TIME)).dedup :=
    List.mem_dedup.mpr (List.mem_map.mpr ⟨r0, hr0, hr0d⟩)
  have hr0f : r0 ∈ rows.filter (fun r => decide (dayOfStamp r.UTC_TIME = d)) :=
    List.mem_filter.mpr ⟨hr0, by simp [hr0d]⟩
  cases hfil : rows.filter (fun r => decide (dayOfStamp r.UTC_TIME = d)) with
  | nil => rw [hfil] at hr0f; cases hr0f
  | cons x xs =>
    have hx_mem : maxRowBy f x xs ∈ rows.filter (fun r => decide (dayOfStamp r.UTC_TIME = d)) := by
      rw [hfil]
      exact maxRowBy_mem f x xs
    refine ⟨maxRowBy f x xs, ?_, ?_, (List.mem_filter.mp hx_mem).1, ?_⟩
    · unfold dailyMaxRows
      refine List.mem_filterMap.mpr ⟨d, hdmem, ?_⟩
      rw [hfil]
    · have := (List.mem_filter.mp hx_mem).2
      simpa using this
    · intro r hr hrd
      have hrf : r ∈ rows.filter (fun r => decide (dayOfStamp r.UTC_TIME = d)) :=
        List.mem_filter.mpr ⟨hr, by simp [hrd]⟩
      rw [hfil] at hrf
      exact maxRowBy_ge f x xs r hrf

theorem mem_rangeRows {store : List Row} {lo hi : Int} {r : Row} :
    r ∈ rangeRows store lo hi ↔ (r ∈ store ∧ lo ≤ r.UTC_TIME ∧ r.UTC_TIME ≤ hi) := by
  unfold rangeRows
  rw [(List.perm_insertionSort _ _).mem_iff]
  simp [List.mem_filter]

theorem query_some (store : List Row) (s e : String) (cols : List String) (step : Nat)
    (hs : generate_stamp s ≠ -1) (he : generate_stamp e ≠ -1) (hne : cols ≠ [])
    (hsub : ∀ x ∈ cols, x ∈ validCols) :
    query_data_actual_advanced store s e cols step
      = some (sortFinal (cols.flatMap
          (chanOut store (generate_stamp s) (generate_stamp e) step))) := by
  have hall : cols.all (fun x => validCols.contains x) = true := by
    rw [List.all_eq_true]
    intro x hx
    simpa using hsub x hx
  unfold query_data_actual_advanced
  dsimp only
  rw [if_neg (by push_neg; exact ⟨hs, he, hne⟩), if_pos hall]

/-- C1: for every requested channel, every step ≥ 1 and every calendar day
with at least one row of that channel in the requested range, the output of
the sampler contains an `is_max = 1` row of that channel on that day whose
value is the maximum value of the channel on that day — thinning never drops
a daily maximum. -/
theorem C1_peak_preservation (store : List Row) (s e : String) (cols : List String)
    (step : Nat) (c : String) (d : Int)
    (hs : generate_stamp s ≠ -1) (he : generate_stamp e ≠ -1)
    (hstep : 1 ≤ step) (hc : c ∈ cols) (hsub : ∀ x ∈ cols, x ∈ validCols)
    (hday : ∃ r ∈ store, generate_stamp s ≤ r.UTC_TIME ∧ r.UTC_TIME ≤ generate_stamp e
      ∧ dayOfStamp r.UTC_TIME = d) :
    ∃ out, query_data_actual_advanced store s e cols step = some out
      ∧ ∃ o ∈ out, o.varName = c ∧ o.is_max = 1 ∧ dayOfStamp o.UTC_TIME = d
        ∧ (∃ r ∈ rangeRows store (generate_stamp s) (generate_stamp e),
            dayOfStamp r.UTC_TIME = d ∧ r.UTC_TIME = o.UTC_TIME ∧ getCol c r = o.value)
        ∧ (∀ r ∈ rangeRows store (generate_stamp s) (generate_stamp e),
            dayOfStamp r.UTC_TIME = d → getCol c r ≤ o.value) := by
  have hcols_ne : cols ≠ [] := by
    intro h0
    rw [h0] at hc
    cases hc
  refine ⟨_, query_some store s e cols step hs he hcols_ne hsub, ?_⟩
  obtain ⟨m, hmMem, hmDay, hmRows, hmMax⟩ := dailyMaxRows_spec (getCol c)
    (rangeRows store (generate_stamp s) (generate_stamp e)) d
    (by
      obtain ⟨r0, hr0, h1, h2, h3⟩ := hday
      exact ⟨r0, mem_rangeRows.mpr ⟨hr0, h1, h2⟩, h3⟩)
  refine ⟨⟨m.UTC_TIME, c, getCol c m, 1⟩, ?_, rfl, rfl, hmDay,
    ⟨m, hmRows, hmDay, rfl, rfl⟩, hmMax⟩
  unfold sortFinal
  rw [(List.perm_insertionSort _ _).mem_iff]
  refine List.mem_flatMap.mpr ⟨c, hc, ?_⟩
  unfold chanOut
  exact List.mem_append_right _ (List.mem_map.mpr ⟨m, hmMem, rfl⟩)

/-- Witness for C1 on a three-row store, step 3, day 19723 (2024-01-01). -/
theorem C1_witness :
    ∃ out, query_data_actual_advanced
        [⟨1704067200, 5, 7, 9, 100, 200, 1, 2, 3, 4⟩,
         ⟨1704070800, 6, 7, 9, 100, 200, 1, 2, 3, 4⟩,
         ⟨1704074400, 4, 7, 9, 100, 200, 1, 2, 3, 4⟩]
        "2024-01-01 00:00:00" "2024-01-01 23:59:59" ["U_IN"] 3 = some out
      ∧ ∃ o ∈ out, o.varName = "U_IN" ∧ o.is_max = 1 ∧ dayOfStamp o.UTC_TIME = 19723
        ∧ (∃ r ∈ rangeRows
            [⟨1704067200, 5, 7, 9, 100, 200, 1, 2, 3, 4⟩,
             ⟨1704070800, 6, 7, 9, 100, 200, 1, 2, 3, 4⟩,
             ⟨1704074400, 4, 7, 9, 100, 200, 1, 2, 3, 4⟩]
            (generate_stamp "2024-01-01 00:00:00") (generate_stamp "2024-01-01 23:59:59"),
            dayOfStamp r.UTC_TIME = 19723 ∧ r.UTC_TIME = o.UTC_TIME
              ∧ getCol "U_IN" r = o.value)
        ∧ (∀ r ∈ rangeRows
            [⟨1704067200, 5, 7, 9, 100, 200, 1, 2, 3, 4⟩,
             ⟨1704070800, 6, 7, 9, 100, 200, 1, 2, 3, 4⟩,
             ⟨1704074400, 4, 7, 9, 100, 200, 1, 2, 3, 4⟩]
            (generate_stamp "2024-01-01 00:00:00") (generate_stamp "2024-01-01 23:59:59"),
            dayOfStamp r.UTC_TIME = 19723 → getCol "U_IN" r ≤ o.value) :=
  C1_peak_preservation
    [⟨1704067200, 5, 7, 9, 100, 200, 1, 2, 3, 4⟩,
     ⟨1704070800, 6, 7, 9, 100, 200, 1, 2, 3, 4⟩,
     ⟨1704074400, 4, 7, 9, 100, 200, 1, 2, 3, 4⟩]
    "2024-01-01 00:00:00" "2024-01-01 23:59:59" ["U_IN"] 3 "U_IN" 19723
    (by decide) (by decide) (by decide) (by decide) (by decide) (by decide)

theorem sortFinal_perm (l : List OutRow) : List.Perm (sortFinal l) l := by
  unfold sortFinal
  exact List.perm_insertionSort _ _

theorem flatMap_single {β : Type} (cols : List String) (F : String → List β) (c : String)
    (hc : c ∈ cols) (hnd : cols.Nodup) (hz : ∀ c' ∈ cols, c' ≠ c → F c' = []) :
    cols.flatMap F = F c := by
  induction cols with
  | nil => cases hc
  | cons a tl ih =>
    rcases List.mem_cons.mp hc with rfl | hctl
    · have htl : tl.flatMap F = [] := by
        rw [List.flatMap_eq_nil_iff]
        intro x hx
        exact hz x (List.mem_cons_of_mem _ hx)
          (fun hxc => (List.nodup_cons.mp hnd).1 (hxc ▸ hx))
      rw [List.flatMap_cons, htl, List.append_nil]
    · have ha : F a = [] := hz a (List.mem_cons_self _ _)
        (fun hac => (List.nodup_cons.mp hnd).1 (hac ▸ hctl))
      rw [List.flatMap_cons, ha, List.nil_append]
      exact ih hctl (List.nodup_cons.mp hnd).2
        (fun c' h1 h2 => hz c' (List.mem_cons_of_mem _ h1) h2)

theorem chanOut_filter_self (store : List Row) (lo hi : Int) (step : Nat) (c : String) :
    (chanOut store lo hi step c).filter (fun o => o.varName == c && o.is_max == 0)
      = (steppedRows step (rangeRows store lo hi)).map
          (fun r => ⟨r.UTC_TIME, c, getCol c r, 0⟩) := by
  unfold chanOut
  rw [List.filter_append]
  have h1 : ((steppedRows step (rangeRows store lo hi)).map
      (fun r => (⟨r.UTC_TIME, c, getCol c r, 0⟩ : OutRow))).filter
      (fun o => o.varName == c && o.is_max == 0)
      = (steppedRows step (rangeRows store lo hi)).map
          (fun r => ⟨r.UTC_TIME, c, getCol c r, 0⟩) := by
    rw [List.filter_eq_self]
    intro o ho
    rcases List.mem_map.mp ho with ⟨r, _, rfl⟩
    simp
  have h2 : ((dailyMaxRows (getCol c) (rangeRows store lo hi)).map
      (fun r => (⟨r.UTC_TIME, c, getCol c r, 1⟩ : OutRow))).filter
      (fun o => o.varName == c && o.is_max == 0) = [] := by
    rw [List.filter_eq_nil_iff]
    intro o ho
    rcases List.mem_map.mp ho with ⟨r, _, rfl⟩
    simp
  rw [h1, h2, List.append_nil]

theorem chanOut_filter_other (store : List Row) (lo hi : Int) (step : Nat)
    {c c' : String} (hne : c' ≠ c) :
    (chanOut store lo hi step c').filter (fun o => o.varName == c && o.is_max == 0)
      = [] := by
  unfold chanOut
  rw [List.filter_eq_nil_iff]
  intro o ho
  rcases List.mem_append.mp ho with ho1 | ho1 <;>
    rcases List.mem_map.mp ho1 with ⟨r, _, rfl⟩ <;> simp [hne]

theorem filter_fst_zip_length {α : Type} (q : Nat → Bool) :
    ∀ (a : List Nat) (b : List α), a.length = b.length →
      ((a.zip b).filter (fun p => q p.1)).length = (a.filter q).length := by
  intro a
  induction a with
  | nil =>
    intro b _
    simp
  | cons x xs ih =>
    intro b hb
    cases b with
    | nil => simp at hb
    | cons y ys =>
      have hb2 : xs.length = ys.length := by simpa using hb
      simp only [List.zip_cons_cons, List.filter_cons]
      by_cases hq : q x = true
      · simp only [hq, if_true, List.length_cons, ih ys hb2]
      · simp only [Bool.not_eq_true] at hq
        simp only [hq, Bool.false_eq_true, if_false, ih ys hb2]

theorem range_count_mod (N : Nat) (hN : 1 ≤ N) :
    ∀ n : Nat, ((List.range n).filter (fun i => decide (i % N = 0))).length
      = (n + N - 1) / N := by
  intro n
  induction n with
  | zero =>
    simp only [List.range_zero, List.filter_nil, List.length_nil]
    exact (Nat.div_eq_of_lt (by omega)).symm
  | succ n ih =>
    rw [List.range_succ, List.filter_append, List.length_append, ih]
    by_cases hd : n % N = 0
    · obtain ⟨k, rfl⟩ := Nat.dvd_of_mod_eq_zero hd
      have hfil : (List.filter (fun i => decide (i % N = 0)) [N * k]).length = 1 := by
        simp [Nat.mul_mod_right]
      rw [hfil]
      have e2 : N * k + 1 + N - 1 = N * k + N := by omega
      have e3 : N * k + N - 1 = N * k + (N - 1) := by omega
      rw [e2, e3, Nat.mul_add_div (show 0 < N by omega) k (N - 1),
        Nat.mul_add_div (show 0 < N by omega) k N,
        Nat.div_eq_of_lt (show N - 1 < N by omega), Nat.div_self (show 0 < N by omega)]
    · have hfil : (List.filter (fun i => decide (i % N = 0)) [n]).length = 0 := by
        simp [hd]
      rw [hfil]
      have hmod := Nat.div_add_mod n N
      have hlt : n % N < N := Nat.mod_lt n (by omega)
      have hge : 1 ≤ n % N := by omega
      have e2 : n + 1 + N - 1 = N * (n / N + 1) + n % N := by
        rw [Nat.mul_succ]
        omega
      have e3 : n + N - 1 = N * (n / N + 1) + (n % N - 1) := by
        rw [Nat.mul_succ]
        omega
      rw [e2, e3, Nat.mul_add_div (show 0 < N by omega) (n / N + 1) (n % N - 1),
        Nat.mul_add_div (show 0 < N by omega) (n / N + 1) (n % N),
        Nat.div_eq_of_lt (show n % N - 1 < N by omega),
        Nat.div_eq_of_lt (show n % N < N by omega)]

theorem steppedRows_length (step : Nat) (hstep : 1 ≤ step) (l : List Row) :
    (steppedRows step l).length = (l.length + step - 1) / step := by
  unfold steppedRows
  rw [if_neg (by omega), List.length_map, List.enum_eq_zip_range]
  rw [filter_fst_zip_length (fun i => decide (i % step = 0)) (List.range l.length) l
    (List.length_range l.length)]
  exact range_count_mod step hstep l.length

/-- C6: for every requested channel and step N ≥ 1, the non-peak rows the
sampler emits for that channel are exactly the in-range rows at 0-based
positions `i` with `i % N = 0` of the timestamp-ordered set, and their count
is `ceil(n / N) = (n + N - 1) / N`. -/
theorem C6_downsampling_density (store : List Row) (s e : String) (cols : List String)
    (step : Nat) (c : String)
    (hs : generate_stamp s ≠ -1) (he : generate_stamp e ≠ -1)
    (hstep : 1 ≤ step) (hc : c ∈ cols) (hsub : ∀ x ∈ cols, x ∈ validCols)
    (hnd : cols.Nodup) :
    ∃ out, query_data_actual_advanced store s e cols step = some out
      ∧ steppedRows step (rangeRows store (generate_stamp s) (generate_stamp e))
          = (((rangeRows store (generate_stamp s) (generate_stamp e)).enum.filter
              (fun p => decide (p.1 % step = 0))).map Prod.snd)
      ∧ List.Perm (out.filter (fun o => o.varName == c && o.is_max == 0))
          ((steppedRows step (rangeRows store (generate_stamp s) (generate_stamp e))).map
            (fun r => ⟨r.UTC_TIME, c, getCol c r, 0⟩))
      ∧ out.countP (fun o => o.varName == c && o.is_max == 0)
          = ((rangeRows store (generate_stamp s) (generate_stamp e)).length + step - 1)
            / step := by
  have hcols_ne : cols ≠ [] := by
    intro h0
    rw [h0] at hc
    cases hc
  have hflat : (cols.flatMap
        (chanOut store (generate_stamp s) (generate_stamp e) step)).filter
        (fun o => o.varName == c && o.is_max == 0)
      = (steppedRows step (rangeRows store (generate_stamp s) (generate_stamp e))).map
          (fun r => ⟨r.UTC_TIME, c, getCol c r, 0⟩) := by
    rw [List.filter_flatMap]
    rw [flatMap_single cols _ c hc hnd
      (fun c' _ h2 => chanOut_filter_other store _ _ step h2)]
    exact chanOut_filter_self store _ _ step c
  have hperm : List.Perm
      ((sortFinal (cols.flatMap
          (chanOut store (generate_stamp s) (generate_stamp e) step))).filter
        (fun o => o.varName == c && o.is_max == 0))
      ((steppedRows step (rangeRows store (generate_stamp s) (generate_stamp e))).map
        (fun r => ⟨r.UTC_TIME, c, getCol c r, 0⟩)) := by
    rw [← hflat]
    exact (sortFinal_perm _).filter _
  refine ⟨_, query_some store s e cols step hs he hcols_ne hsub, ?_, hperm, ?_⟩
  · unfold steppedRows
    rw [if_neg (by omega)]
  · rw [List.countP_eq_length_filter, hperm.length_eq, List.length_map,
      steppedRows_length step hstep]

/-- Witness for C6: three rows, step 2, channel U_IN: two non-peak rows,
`ceil(3/2) = 2`. -/
theorem C6_witness :
    ∃ out, query_data_actual_advanced
        [⟨1704067200, 5, 7, 9, 100, 200, 1, 2, 3, 4⟩,
         ⟨1704070800, 6, 7, 9, 100, 200, 1, 2, 3, 4⟩,
         ⟨1704074400, 4, 7, 9, 100, 200, 1, 2, 3, 4⟩]
        "2024-01-01 00:00:00" "2024-01-01 23:59:59" ["U_IN"] 2 = some out
      ∧ steppedRows 2 (rangeRows
          [⟨1704067200, 5, 7, 9, 100, 200, 1, 2, 3, 4⟩,
           ⟨1704070800, 6, 7, 9, 100, 200, 1, 2, 3, 4⟩,
           ⟨1704074400, 4, 7, 9, 100, 200, 1, 2, 3, 4⟩]
          (generate_stamp "2024-01-01 00:00:00") (generate_stamp "2024-01-01 23:59:59"))
        = (((rangeRows
          [⟨1704067200, 5, 7, 9, 100, 200, 1, 2, 3, 4⟩,
           ⟨1704070800, 6, 7, 9, 100, 200, 1, 2, 3, 4⟩,
           ⟨1704074400, 4, 7, 9, 100, 200, 1, 2, 3, 4⟩]
          (generate_stamp "2024-01-01 00:00:00")
          (generate_stamp "2024-01-01 23:59:59")).enum.filter
            (fun p => decide (p.1 % 2 = 0))).map Prod.snd)
      ∧ List.Perm (out.filter (fun o => o.varName == "U_IN" && o.is_max == 0))
          ((steppedRows 2 (rangeRows
            [⟨1704067200, 5, 7, 9, 100, 200, 1, 2, 3, 4⟩,
             ⟨1704070800, 6, 7, 9, 100, 200, 1, 2, 3, 4⟩,
             ⟨1704074400, 4, 7, 9, 100, 200, 1, 2, 3, 4⟩]
            (generate_stamp "2024-01-01 00:00:00")
            (generate_stamp "2024-01-01 23:59:59"))).map
            (fun r => ⟨r.UTC_TIME, "U_IN", getCol "U_IN" r, 0⟩))
      ∧ out.countP (fun o => o.varName == "U_IN" && o.is_max == 0)
          = ((rangeRows
            [⟨1704067200, 5, 7, 9, 100, 200, 1, 2, 3, 4⟩,
             ⟨1704070800, 6, 7, 9, 100, 200, 1, 2, 3, 4⟩,
             ⟨1704074400, 4, 7, 9, 100, 200, 1, 2, 3, 4⟩]
            (generate_stamp "2024-01-01 00:00:00")
            (generate_stamp "2024-01-01 23:59:59")).length + 2 - 1) / 2 :=
  C6_downsampling_density
    [⟨1704067200, 5, 7, 9, 100, 200, 1, 2, 3, 4⟩,
     ⟨1704070800, 6, 7, 9, 100, 200, 1, 2, 3, 4⟩,
     ⟨1704074400, 4, 7, 9, 100, 200, 1, 2, 3, 4⟩]
    "2024-01-01 00:00:00" "2024-01-01 23:59:59" ["U_IN"] 2 "U_IN"
    (by decide) (by decide) (by decide) (by decide) (by decide) (by decide)
